import Mathlib

/-!
Verification development for the SwingPilot trading agent
(backend/bot: strategy.py, order_manager.py, position_manager.py,
scan_ema.py). Prices and volumes are modelled as rationals, candle
open times as integers (seconds since epoch). Broker/terminal calls
are modelled by explicit environment records passed to the functions
that consume them.
-/

namespace SwingPilot

/-- Float-comparison tolerance used throughout strategy.py and
order_manager.py (the literal 1e-12). -/
def tol : ℚ := 1 / 10 ^ 12

/-- Live quote as returned by mt5.symbol_info_tick. -/
structure Tick where
  bid : ℚ
  ask : ℚ
deriving DecidableEq

/-- One OHLC candle row. The source field "open" is a Lean keyword,
so it is embedded as the field `openp`. `time` is the bar open time
in seconds. -/
structure Candle where
  time : ℤ
  openp : ℚ
  high : ℚ
  low : ℚ
  close : ℚ
deriving DecidableEq

/-- strategy.candle_is_bull: close strictly above open. -/
def candle_is_bull (c : Candle) : Prop := c.openp < c.close

/-- strategy.candle_is_bear: close strictly below open. -/
def candle_is_bear (c : Candle) : Prop := c.close < c.openp

instance (c : Candle) : Decidable (candle_is_bull c) := by
  unfold candle_is_bull; infer_instance

instance (c : Candle) : Decidable (candle_is_bear c) := by
  unfold candle_is_bear; infer_instance

/-- Close time of a candle: open time plus the timeframe duration
(`mins` minutes), in seconds. -/
def bar_end (c : Candle) (mins : ℤ) : ℤ := c.time + mins * 60

/-- strategy.get_last_two_closed: the two most recent fully closed
candles of `df`. The timeframe string parsing ("M15" to 15 minutes)
is abstracted into the `mins` argument; `now` and `safety` are in
seconds. Mirrors the source: with fewer than 3 rows it filters to
closed rows and takes the final two; otherwise it drops the final
row exactly when that row is still forming. -/
def get_last_two_closed (df : List Candle) (mins now safety : ℤ) :
    Option (Candle × Candle) :=
  if df.length < 3 then
    let closed := df.filter (fun c => bar_end c mins ≤ now - safety)
    match closed.reverse with
    | lastc :: prevc :: _ => some (prevc, lastc)
    | _ => none
  else
    match df.reverse with
    | r1 :: r2 :: r3 :: _ =>
      if now - safety < bar_end r1 mins then some (r3, r2) else some (r2, r1)
    | _ => none

/-- One update of the exponential recursion with weight 2/(period+1). -/
def ema_step (period : ℕ) (acc x : ℚ) : ℚ :=
  acc + (2 / ((period : ℚ) + 1)) * (x - acc)

/-- Modelled from the spec: the module indicators.py (function `ema`,
imported by strategy.py) is not among the provided sources. Spec 4.1:
each EMA is computed over the full provided close sequence using the
standard exponential recursion with weight 2/(period+1), seeded with
the first value, and the value at the last closed bar is read. This
returns that last value, or `none` on an empty sequence. -/
def emaLast (closes : List ℚ) (period : ℕ) : Option ℚ :=
  match closes with
  | [] => none
  | c :: rest => some (rest.foldl (ema_step period) c)

/-- Comparison of possibly-missing EMA values. A missing key in the
source yields float NaN, and every comparison against NaN is false;
`none` plays the role of NaN here. -/
def nLt (a b : Option ℚ) : Bool :=
  match a, b with
  | some x, some y => decide (x < y)
  | _, _ => false

/-- Mirror of `nLt`: a > b with NaN-propagation. -/
def nGt (a b : Option ℚ) : Bool := nLt b a

/-- The classification chain of strategy.analyze_trend over the three
values read at the hard-coded keys 9, 20 and 50. -/
def trend_classify (e9 e20 e50 : Option ℚ) : String :=
  if nGt e9 e20 && nGt e20 e50 then "true_bull"
  else if nLt e9 e20 && nLt e20 e50 then "true_bear"
  else if nLt e9 e20 && nGt e20 e50 then "weak_bull"
  else if nGt e9 e20 && nLt e20 e50 then "weak_bear"
  else "neutral"

/-- strategy.analyze_trend: computes one EMA column per configured
period over the close sequence, then reads the hard-coded keys 9, 20
and 50 from the resulting dict (missing key gives NaN, here `none`)
and classifies. -/
def analyze_trend (closes : List ℚ) (emas_trend : List ℕ) : String :=
  trend_classify
    (if 9 ∈ emas_trend then emaLast closes 9 else none)
    (if 20 ∈ emas_trend then emaLast closes 20 else none)
    (if 50 ∈ emas_trend then emaLast closes 50 else none)

/-- The classification table exactly as written in spec section 4.1,
with named values fast/mid/slow and strict comparisons; ties fall
through to neutral. Used only to compare against the source-derived
`trend_classify`. -/
def trend_table (fast mid slow : ℚ) : String :=
  if fast > mid ∧ mid > slow then "true_bull"
  else if fast < mid ∧ mid < slow then "true_bear"
  else if fast < mid ∧ mid > slow then "weak_bull"
  else if fast > mid ∧ mid < slow then "weak_bear"
  else "neutral"

/-- Order hint attached to an entry decision:
strategy.detect_entry_15m returns either a market hint or a limit
hint with a price. -/
inductive OrderHint where
  | market : OrderHint
  | limit : ℚ → OrderHint
deriving DecidableEq

/-- Core pattern logic of strategy.detect_entry_15m, applied to the
resolved (prev, last) closed candles. Thresholds come from config in
the source (LARGE_CANDLE_THRESHOLD_USD, LIMIT_PULLBACK_PCT) and are
passed as the arguments `big_threshold` and `pullback_pct`. -/
def detect_entry_core (prev last : Candle) (trend : String)
    (big_threshold pullback_pct : ℚ) :
    Option String × String × OrderHint :=
  let last_range := last.high - last.low
  let body := |last.close - last.openp|
  if trend = "true_bull" ∨ trend = "weak_bull" then
    if candle_is_bear prev ∧ candle_is_bull last then
      if last_range ≥ big_threshold ∧ body > tol then
        (some "long", "bull entry with limit (big candle)",
          OrderHint.limit (last.close - pullback_pct * (last.close - last.openp)))
      else if last.low ≤ prev.low + tol ∧ last.close ≥ prev.close - tol then
        (some "long", "bull entry pattern valid", OrderHint.market)
      else if ¬ (last.low ≤ prev.low + tol) then
        (none, "green low above prev low", OrderHint.market)
      else
        (none, "green close below prev close", OrderHint.market)
    else (none, "no red->green pattern", OrderHint.market)
  else if trend = "true_bear" ∨ trend = "weak_bear" then
    if candle_is_bull prev ∧ candle_is_bear last then
      if last_range ≥ big_threshold ∧ body > tol then
        (some "short", "bear entry with limit (big candle)",
          OrderHint.limit (last.close + pullback_pct * (last.openp - last.close)))
      else if last.high ≥ prev.high - tol ∧ last.close ≤ prev.close + tol then
        (some "short", "bear entry pattern valid", OrderHint.market)
      else if ¬ (last.high ≥ prev.high - tol) then
        (none, "red high below prev high", OrderHint.market)
      else
        (none, "red close above prev close", OrderHint.market)
    else (none, "no green->red pattern", OrderHint.market)
  else (none, "trend not supporting entry", OrderHint.market)

/-- strategy.detect_entry_15m: resolve the two most recent fully
closed M15 candles (15 minutes, safety margin 1 second as in the
source defaults), then run the pattern core. -/
def detect_entry_15m (df : List Candle) (now : ℤ) (trend : String)
    (big_threshold pullback_pct : ℚ) :
    Option String × String × OrderHint :=
  match get_last_two_closed df 15 now 1 with
  | none => (none, "not enough closed bars", OrderHint.market)
  | some (prev, last) => detect_entry_core prev last trend big_threshold pullback_pct

/-- Configuration surface consumed by the embedded functions
(config_loader.DEFAULT_CFG keys plus the getattr-with-default keys
read in strategy.py, scan_ema.py and position_manager.py). -/
structure Config where
  EMAS_TREND : List ℕ
  SL_DISTANCE_USD : ℚ
  TP_DISTANCE_USD : ℚ
  MIN_LOT : ℚ
  LOT_STEP : ℚ
  DEFAULT_VOLUME : ℚ
  DRY_RUN : Bool
  MAGIC : ℤ
  MIN_STOP_DISTANCE : ℚ
  LARGE_CANDLE_THRESHOLD_USD : ℚ
  LIMIT_PULLBACK_PCT : ℚ
  LIMIT_PENDING_MAX_WAIT_SECONDS : ℕ
  LIMIT_PENDING_POLL_INTERVAL : ℕ
  TRAIL_TRIGGER_RR : ℚ
  REDUCED_RISK_USD : ℚ

/-- Python round(x, d) scaled to d decimal places. Mathlib `round`
rounds half away from zero on .5 ties where Python rounds half to
even; every use below is on values that are exact multiples of the
scale, where the two agree. -/
def roundTo (d : ℕ) (q : ℚ) : ℚ := ((round (q * 10 ^ d) : ℤ) : ℚ) / 10 ^ d

/-- order_manager.round_lot: clamp the requested volume up to the
minimum lot, floor to the nearest lot-step multiple, round to 8
decimals. -/
def round_lot (lot_step min_lot volume : ℚ) : ℚ :=
  let v := max volume min_lot
  roundTo 8 ((⌊v / lot_step⌋ : ℚ) * lot_step)

/-- order_manager._validate_limit_price, with the live tick passed in
explicitly. Returns (ok, reason). A buy limit must sit below the ask
(beyond the 1e-12 float tolerance) by at least MIN_STOP_DISTANCE; a
sell limit mirrors this against the bid. -/
def validate_limit_price (tick : Option Tick) (min_stop : ℚ)
    (direction : String) (limit_price : ℚ) : Bool × String :=
  match tick with
  | none => (false, "no tick available")
  | some t =>
    if direction = "long" then
      if ¬ (limit_price < t.ask - tol) then (false, "buy limit not below ask")
      else if t.ask - limit_price < min_stop then
        (false, "buy limit too close to market")
      else (true, "ok")
    else
      if ¬ (t.bid + tol < limit_price) then (false, "sell limit not above bid")
      else if limit_price - t.bid < min_stop then
        (false, "sell limit too close to market")
      else (true, "ok")

/-- mt5 trade actions used by order_manager. -/
inductive TradeAction where
  | deal : TradeAction
  | pending : TradeAction
deriving DecidableEq

/-- mt5 order types used by order_manager. -/
inductive OrderKind where
  | buy : OrderKind
  | sell : OrderKind
  | buy_limit : OrderKind
  | sell_limit : OrderKind
deriving DecidableEq

/-- The broker-ready request dict built by
order_manager.build_order_request (the fields with branching
content; constants such as deviation and comment are omitted). -/
structure OrderRequest where
  action : TradeAction
  volume : ℚ
  otype : OrderKind
  price : ℚ
  sl : ℚ
  tp : ℚ
  magic : ℤ
deriving DecidableEq

/-- order_manager.build_order_request. Returns `none` exactly where
the source returns None: missing tick, normalized volume below the
minimum lot, limit order without a limit price, failed limit-price
validation, or an unknown order type. -/
def build_order_request (cfg : Config) (tick : Option Tick)
    (direction : String) (volume sl_price tp_price : ℚ)
    (order_type : String) (limit_price : Option ℚ) : Option OrderRequest :=
  match tick with
  | none => none
  | some t =>
    let v := round_lot cfg.LOT_STEP cfg.MIN_LOT volume
    if v < cfg.MIN_LOT then none
    else if order_type = "market" then
      some { action := TradeAction.deal
             volume := v
             otype := if direction = "long" then OrderKind.buy else OrderKind.sell
             price := if direction = "long" then t.ask else t.bid
             sl := sl_price
             tp := tp_price
             magic := cfg.MAGIC }
    else if order_type = "limit" then
      match limit_price with
      | none => none
      | some lp =>
        if (validate_limit_price (some t) cfg.MIN_STOP_DISTANCE direction lp).1 then
          some { action := TradeAction.pending
                 volume := v
                 otype := if direction = "long" then OrderKind.buy_limit else OrderKind.sell_limit
                 price := lp
                 sl := sl_price
                 tp := tp_price
                 magic := cfg.MAGIC }
        else none
    else none

/-- One pending order as seen by order_manager's cancellation routine,
together with the outcomes of the transport calls that would be made
for it: `sendRes = none` models mt5.order_send returning None (which
triggers the order_delete fallback), `sendRes = some rc` models a
response whose retcode attribute is `rc` (`none` when the attribute is
absent); `deleteFails = some e` models the fallback order_delete
raising `e`. -/
structure PendingOrderW where
  ticket : Option ℕ
  magic : Option ℤ
  sendRes : Option (Option ℤ)
  deleteFails : Option String
deriving DecidableEq

/-- Environment of one call to
order_manager.cancel_pending_orders_for_symbol:
`ordersGetFails = some e` models mt5.orders_get raising `e`, otherwise
`orders` is the returned list. -/
structure CancelWorld where
  ordersGetFails : Option String
  orders : List PendingOrderW
deriving DecidableEq

/-- Per-order body of the cancellation loop (the try-block inside the
for-loop of cancel_pending_orders_for_symbol), folding an accumulator
of (cancelled count, error list). A ticket of `none` makes the source
raise inside the try (int(None)) and land in the unknown-error
handler. -/
def cancel_order_step (cfg : Config) (acc : ℕ × List String)
    (o : PendingOrderW) : ℕ × List String :=
  if (match o.magic with | some m => decide (m ≠ cfg.MAGIC) | none => false) then acc
  else if cfg.DRY_RUN then (acc.1 + 1, acc.2)
  else
    match o.ticket with
    | none => (acc.1, acc.2 ++ ["unknown:int_of_none"])
    | some t =>
      match o.sendRes with
      | none =>
        match o.deleteFails with
        | none => (acc.1 + 1, acc.2)
        | some e => (acc.1, acc.2 ++ [toString t ++ ":delete_failed:" ++ e])
      | some rc =>
        match rc with
        | none => (acc.1 + 1, acc.2)
        | some r =>
          if r = 0 then (acc.1 + 1, acc.2)
          else (acc.1, acc.2 ++ [toString t ++ ":retcode=" ++ toString r])

/-- order_manager.cancel_pending_orders_for_symbol: cancel the pending
orders carrying this agent's magic number. Every transport failure is
converted into data: an orders_get failure yields (0, [message]), and
per-order failures are appended to the error list while the loop
continues. -/
def cancel_pending_orders_for_symbol (cfg : Config) (w : CancelWorld) :
    ℕ × List String :=
  match w.ordersGetFails with
  | some e => (0, ["orders_get_failed:" ++ e])
  | none => w.orders.foldl (cancel_order_step cfg) (0, [])

/-- Data consumed by one SL-tightening check of
position_manager.monitor_position_by_symbol for one position during
one poll round: the defensively-extracted position fields, the live
tick at that moment (`none` models symbol_info_tick returning None),
and the outcome the transport would report for a modify request
(`modifyOk` is the boolean component of _modify_position_sl). -/
structure TightenInp where
  ticket : Option ℕ
  price_open : ℚ
  pos_type : ℕ
  sl : Option ℚ
  tp : Option ℚ
  tick : Option Tick
  modifyOk : Bool
deriving DecidableEq

/-- The SL-tightening block of monitor_position_by_symbol for a single
position in a single poll round, acting on the run-scoped tightened
set `S` (the module-level _tightened_positions). Returns the stop-loss
modification issued this round (`none` when no modify call is made)
and the updated tightened set. -/
def tighten_step (cfg : Config) (S : List ℕ) (inp : TightenInp) :
    Option ℚ × List ℕ :=
  match inp.ticket with
  | none => (none, S)
  | some t =>
    if t ∈ S then (none, S)
    else
      let initial_sl_distance :=
        match inp.sl with
        | none => |cfg.SL_DISTANCE_USD|
        | some s =>
          if s = 0 then |cfg.SL_DISTANCE_USD|
          else if |inp.price_open - s| ≤ 0 then |cfg.SL_DISTANCE_USD|
          else |inp.price_open - s|
      if initial_sl_distance ≤ 0 then (none, S)
      else
        let current_price :=
          match inp.tick with
          | none => inp.price_open
          | some tk => if inp.pos_type = 0 then tk.bid else tk.ask
        let price_move :=
          if inp.pos_type = 0 then current_price - inp.price_open
          else inp.price_open - current_price
        let current_rr := price_move / initial_sl_distance
        if current_rr ≥ cfg.TRAIL_TRIGGER_RR then
          let desired_new_sl := roundTo 5
            (if inp.pos_type = 0 then inp.price_open - cfg.REDUCED_RISK_USD
             else inp.price_open + cfg.REDUCED_RISK_USD)
          let current_sl_val : Option ℚ :=
            match inp.sl with
            | none => none
            | some s => if s = 0 then none else some s
          let a1 :=
            match current_sl_val with
            | none => true
            | some c =>
              if inp.pos_type = 0 then decide (c < desired_new_sl)
              else decide (desired_new_sl < c)
          let a2 :=
            if inp.pos_type = 0 ∧ ¬ (desired_new_sl < current_price) then false
            else a1
          let a3 :=
            if inp.pos_type = 1 ∧ ¬ (current_price < desired_new_sl) then false
            else a2
          if a3 then
            if inp.modifyOk then (some desired_new_sl, t :: S)
            else (some desired_new_sl, S)
          else (none, S)
        else (none, S)

/-- Successive poll rounds of the tightening check, threading the
run-scoped tightened set. Produces the per-round issued modification
(if any) and the final set. -/
def tighten_run (cfg : Config) : List ℕ → List TightenInp →
    List (Option ℚ) × List ℕ
  | S, [] => ([], S)
  | S, inp :: rest =>
    let st := tighten_step cfg S inp
    let r := tighten_run cfg st.2 rest
    (st.1 :: r.1, r.2)

/-- One open position as seen by scan_ema.get_open_positions. Only its
existence drives the scan gate, so a ticket field suffices. -/
structure PositionRec where
  ticket : ℕ
deriving DecidableEq

/-- Environment of one call to scan_ema.scan_once: the pre-entry
positions_get result, the close series of the fetched trend candles,
the fetched entry candles, the wall clock, the live tick, the sequence
of positions_get observations made by the pending-fill poll loop, and
the world seen by the cancellation routine. -/
structure ScanEnv where
  cfg : Config
  positions : List PositionRec
  h1closes : List ℚ
  entryBars : List Candle
  now : ℤ
  tick : Option Tick
  pendingObs : ℕ → Bool
  cancelWorld : CancelWorld

/-- Result of scan_ema.scan_once: the (opened, reason) pair the source
returns (success paths return the raw send response; its reason is
summarized as a short tag string here), together with the order
request that was submitted (none when the scan returned before
building one) and the aggregate reported by the cancellation routine
when it ran. -/
structure ScanResult where
  opened : Bool
  reason : String
  request : Option OrderRequest
  cancelReport : Option (ℕ × List String)
deriving DecidableEq

/-- Number of iterations of the pending-fill wait loop: the source
increments `waited` by the poll interval until it reaches the maximum
wait, checking positions once per iteration. -/
def numPolls (cfg : Config) : ℕ :=
  if cfg.LIMIT_PENDING_POLL_INTERVAL = 0 then 0
  else (cfg.LIMIT_PENDING_MAX_WAIT_SECONDS + cfg.LIMIT_PENDING_POLL_INTERVAL - 1) /
    cfg.LIMIT_PENDING_POLL_INTERVAL

/-- The pending-fill supervision block of scan_once (lines after a
limit request was sent, DRY_RUN off): poll until a position appears;
on timeout cancel this agent's pending orders and report
pending_timeout_cancelled. -/
def pending_phase (env : ScanEnv) (req : OrderRequest) : ScanResult :=
  if (List.range (numPolls env.cfg)).any env.pendingObs then
    { opened := true, reason := "sent", request := some req, cancelReport := none }
  else
    { opened := false
      reason := "pending_timeout_cancelled"
      request := some req
      cancelReport := some (cancel_pending_orders_for_symbol env.cfg env.cancelWorld) }

/-- Tail of scan_once after a request was built and sent: dry-run
returns at once; a pending request enters the fill wait; a market
request proceeds to the blocking position monitor (whose outcome does
not change the scan result). -/
def after_send (env : ScanEnv) (req : OrderRequest) : ScanResult :=
  if env.cfg.DRY_RUN then
    { opened := true, reason := "dry-run", request := some req, cancelReport := none }
  else if req.action = TradeAction.pending then pending_phase env req
  else { opened := true, reason := "sent", request := some req, cancelReport := none }

/-- scan_ema.scan_once. Mirrors the source control flow: skip when
positions_get is non-empty, classify the trend, detect the entry,
bail out on missing tick or sub-minimum volume, build the request per
the order hint (recomputing SL/TP from the limit price for limit
hints), then hand off to the send/supervision tail. -/
def scan_once (env : ScanEnv) : ScanResult :=
  if env.positions.isEmpty then
    let trend := analyze_trend env.h1closes env.cfg.EMAS_TREND
    match detect_entry_15m env.entryBars env.now trend
        env.cfg.LARGE_CANDLE_THRESHOLD_USD env.cfg.LIMIT_PULLBACK_PCT with
    | (direction, reason, order_hint) =>
      if direction = some "long" ∨ direction = some "short" then
        match env.tick with
        | none =>
          { opened := false, reason := "no tick data", request := none, cancelReport := none }
        | some t =>
          let dirStr := if direction = some "long" then "long" else "short"
          let entry_price_ref := if dirStr = "long" then t.ask else t.bid
          let sl_price_ref :=
            if dirStr = "long" then entry_price_ref - env.cfg.SL_DISTANCE_USD
            else entry_price_ref + env.cfg.SL_DISTANCE_USD
          let tp_price_ref :=
            if dirStr = "long" then entry_price_ref + env.cfg.TP_DISTANCE_USD
            else entry_price_ref - env.cfg.TP_DISTANCE_USD
          let volume := round_lot env.cfg.LOT_STEP env.cfg.MIN_LOT env.cfg.DEFAULT_VOLUME
          if volume < env.cfg.MIN_LOT then
            { opened := false, reason := "volume below min lot", request := none, cancelReport := none }
          else
            match order_hint with
            | OrderHint.market =>
              match build_order_request env.cfg (some t) dirStr volume
                  sl_price_ref tp_price_ref "market" none with
              | none =>
                { opened := false, reason := "request_build_failed", request := none, cancelReport := none }
              | some req => after_send env req
            | OrderHint.limit lp =>
              let sl2 :=
                if dirStr = "long" then lp - env.cfg.SL_DISTANCE_USD
                else lp + env.cfg.SL_DISTANCE_USD
              let tp2 :=
                if dirStr = "long" then lp + env.cfg.TP_DISTANCE_USD
                else lp - env.cfg.TP_DISTANCE_USD
              match build_order_request env.cfg (some t) dirStr volume
                  sl2 tp2 "limit" (some lp) with
              | none =>
                { opened := false, reason := "limit_request_invalid", request := none, cancelReport := none }
              | some req => after_send env req
      else
        { opened := false, reason := reason, request := none, cancelReport := none }
  else
    { opened := false, reason := "position_already_open", request := none, cancelReport := none }

lemma tol_pos : 0 < tol := by norm_num [tol]

lemma trend_classify_none_left (b c : Option ℚ) :
    trend_classify none b c = "neutral" := by
  cases b <;> cases c <;> simp [trend_classify, nGt, nLt]

lemma trend_classify_none_mid (a c : Option ℚ) :
    trend_classify a none c = "neutral" := by
  cases a <;> cases c <;> simp [trend_classify, nGt, nLt]

lemma trend_classify_none_right (a b : Option ℚ) :
    trend_classify a b none = "neutral" := by
  cases a <;> cases b <;> simp [trend_classify, nGt, nLt]

/-- Claim C6: for every triple of EMA values fast/mid/slow at the last
closed bar, analyze_trend returns exactly the label of the spec's
classification table (fast>mid>slow true_bull, fast<mid<slow
true_bear, fast<mid and mid>slow weak_bull, fast>mid and mid<slow
weak_bear, otherwise neutral); equality in a compared pair falls
through to neutral; and on the configured period list [9, 20, 50]
analyze_trend is exactly this classification of the three EMA values,
hence deterministic in the candle close sequence. -/
theorem analyze_trend_matches_table :
    (∀ e9 e20 e50 : ℚ,
      trend_classify (some e9) (some e20) (some e50) = trend_table e9 e20 e50)
    ∧ (∀ closes : List ℚ,
      analyze_trend closes [9, 20, 50] =
        trend_classify (emaLast closes 9) (emaLast closes 20) (emaLast closes 50))
    ∧ (∀ e9 e20 e50 : ℚ, e9 = e20 ∨ e20 = e50 →
      trend_classify (some e9) (some e20) (some e50) = "neutral") := by
  refine ⟨?_, ?_, ?_⟩
  · intro a b c
    by_cases h1 : b < a <;> by_cases h2 : c < b <;>
      by_cases h3 : a < b <;> by_cases h4 : b < c <;>
      simp [trend_classify, trend_table, nGt, nLt, h1, h2, h3, h4]
  · intro closes
    rfl
  · intro a b c h
    rcases h with h | h <;> subst h <;>
      simp [trend_classify, nGt, nLt, lt_irrefl]

/-- Witness for C6: concrete classifications, including a tie falling
through to neutral. -/
theorem analyze_trend_matches_table_witness :
    trend_classify (some 3) (some 3) (some 1) = "neutral"
    ∧ trend_classify (some 5) (some 4) (some 3) = trend_table 5 4 3 :=
  ⟨analyze_trend_matches_table.2.2 3 3 1 (Or.inl rfl),
   analyze_trend_matches_table.1 5 4 3⟩

/-- Claim C9: whenever the configured EMA period list does not contain
all three of the exact periods 9, 20 and 50, analyze_trend returns
neutral regardless of the computed EMA values, because the classifier
reads the hard-coded keys 9, 20 and 50 and a missing key yields NaN,
whose every comparison is false. -/
theorem analyze_trend_neutral_without_9_20_50
    (closes : List ℚ) (periods : List ℕ)
    (h : 9 ∉ periods ∨ 20 ∉ periods ∨ 50 ∉ periods) :
    analyze_trend closes periods = "neutral" := by
  rcases h with h | h | h
  · simp [analyze_trend, h, trend_classify_none_left]
  · simp [analyze_trend, h, trend_classify_none_mid]
  · simp [analyze_trend, h, trend_classify_none_right]

/-- Witness for C9: a period list missing 9 classifies as neutral even
though the close sequence is strictly rising. -/
theorem analyze_trend_neutral_without_9_20_50_witness :
    analyze_trend [1, 2, 3, 4] [20, 50] = "neutral" :=
  analyze_trend_neutral_without_9_20_50 [1, 2, 3, 4] [20, 50]
    (Or.inl (by decide))

/-- Claim C3: with a bullish trend label, prev bearish and last
bullish, a last-candle range at or above the large-candle threshold
and a body beyond the tolerance, detect_entry_15m emits a long limit
order at last.close minus pullback_pct times (last.close - last.open),
taking precedence over the market-entry sub-conditions. -/
theorem bull_big_candle_limit_entry (prev last : Candle) (trend : String)
    (thr pct : ℚ)
    (htrend : trend = "true_bull" ∨ trend = "weak_bull")
    (hprev : candle_is_bear prev) (hlast : candle_is_bull last)
    (hrange : last.high - last.low ≥ thr)
    (hbody : |last.close - last.openp| > tol) :
    detect_entry_core prev last trend thr pct =
      (some "long", "bull entry with limit (big candle)",
        OrderHint.limit (last.close - pct * (last.close - last.openp))) := by
  unfold detect_entry_core
  rw [if_pos htrend, if_pos ⟨hprev, hlast⟩, if_pos ⟨hrange, hbody⟩]

/-- Witness for C3: the spec's concrete instance, prev=(open 10, close
9), last=(open 9, high 11.5, low 8.9, close 11), threshold 2,
pullback 0.3: a long limit at 10.4. -/
theorem bull_big_candle_limit_entry_witness :
    detect_entry_core ⟨0, 10, 10, 9, 9⟩ ⟨900, 9, 23/2, 89/10, 11⟩
        "true_bull" 2 (3/10) =
      (some "long", "bull entry with limit (big candle)",
        OrderHint.limit (52/5)) := by
  have h := bull_big_candle_limit_entry ⟨0, 10, 10, 9, 9⟩
    ⟨900, 9, 23/2, 89/10, 11⟩ "true_bull" 2 (3/10) (Or.inl rfl)
    (by norm_num [candle_is_bear]) (by norm_num [candle_is_bull])
    (by norm_num) (by norm_num [tol])
  rw [h]
  norm_num

/-- Claim C10: whenever the entry detector emits a limit hint with a
pullback percentage strictly between 0 and 1, the limit price lies
strictly inside the last candle's body: for a long between last.open
and last.close, for a short between last.close and last.open. -/
theorem limit_hint_inside_body (prev last : Candle) (trend : String)
    (thr pct : ℚ) (r : String) (p : ℚ)
    (hpct0 : 0 < pct) (hpct1 : pct < 1) :
    (detect_entry_core prev last trend thr pct =
        (some "long", r, OrderHint.limit p) →
      last.openp < p ∧ p < last.close)
    ∧ (detect_entry_core prev last trend thr pct =
        (some "short", r, OrderHint.limit p) →
      last.close < p ∧ p < last.openp) := by
  constructor
  · intro h
    simp only [detect_entry_core] at h
    by_cases hb : trend = "true_bull" ∨ trend = "weak_bull"
    · rw [if_pos hb] at h
      by_cases hpat : candle_is_bear prev ∧ candle_is_bull last
      · rw [if_pos hpat] at h
        by_cases hbig : last.high - last.low ≥ thr ∧ |last.close - last.openp| > tol
        · rw [if_pos hbig] at h
          simp only [Prod.mk.injEq, OrderHint.limit.injEq] at h
          obtain ⟨-, -, hp⟩ := h
          have hbull : last.openp < last.close := hpat.2
          constructor
          · nlinarith [mul_pos (by linarith : (0:ℚ) < 1 - pct)
              (sub_pos.mpr hbull)]
          · nlinarith [mul_pos hpct0 (sub_pos.mpr hbull)]
        · rw [if_neg hbig] at h
          split_ifs at h <;> simp at h
      · rw [if_neg hpat] at h
        simp at h
    · rw [if_neg hb] at h
      split_ifs at h <;> simp at h
  · intro h
    simp only [detect_entry_core] at h
    by_cases hb : trend = "true_bull" ∨ trend = "weak_bull"
    · rw [if_pos hb] at h
      split_ifs at h <;> simp at h
    · rw [if_neg hb] at h
      by_cases hbe : trend = "true_bear" ∨ trend = "weak_bear"
      · rw [if_pos hbe] at h
        by_cases hpat : candle_is_bull prev ∧ candle_is_bear last
        · rw [if_pos hpat] at h
          by_cases hbig : last.high - last.low ≥ thr ∧ |last.close - last.openp| > tol
          · rw [if_pos hbig] at h
            simp only [Prod.mk.injEq, OrderHint.limit.injEq] at h
            obtain ⟨-, -, hp⟩ := h
            have hbear : last.close < last.openp := hpat.2
            constructor
            · nlinarith [mul_pos hpct0 (sub_pos.mpr hbear)]
            · nlinarith [mul_pos (by linarith : (0:ℚ) < 1 - pct)
                (sub_pos.mpr hbear)]
          · rw [if_neg hbig] at h
            split_ifs at h <;> simp at h
        · rw [if_neg hpat] at h
          simp at h
      · rw [if_neg hbe] at h
        simp at h

/-- Witness for C10: a concrete short big-candle entry with pullback
0.5, last candle (open 11, close 9), limit price 10 strictly inside
the body. -/
theorem limit_hint_inside_body_witness : (9 : ℚ) < 10 ∧ (10 : ℚ) < 11 := by
  have heq : detect_entry_core ⟨0, 9, 51/5, 44/5, 10⟩ ⟨900, 11, 23/2, 44/5, 9⟩
      "true_bear" 2 (1/2) =
      (some "short", "bear entry with limit (big candle)", OrderHint.limit 10) := by
    unfold detect_entry_core
    rw [if_neg (by decide : ¬ (("true_bear" : String) = "true_bull"
          ∨ ("true_bear" : String) = "weak_bull")),
      if_pos (Or.inl rfl : ("true_bear" : String) = "true_bear"
          ∨ ("true_bear" : String) = "weak_bear"),
      if_pos ⟨by norm_num [candle_is_bull], by norm_num [candle_is_bear]⟩,
      if_pos ⟨by norm_num, by norm_num [tol]⟩]
    norm_num [Prod.mk.injEq]
  have h := (limit_hint_inside_body ⟨0, 9, 51/5, 44/5, 10⟩
    ⟨900, 11, 23/2, 44/5, 9⟩ "true_bear" 2 (1/2)
    "bear entry with limit (big candle)" 10
    (by norm_num) (by norm_num)).2 heq
  exact h

/-- Claim C4: for limit orders, a long limit is accepted exactly when
it sits below the ask by at least the configured minimum stop
distance (given that this distance exceeds the float tolerance): a
long limit equal to the ask is rejected, a long limit at exactly
ask - min_stop is accepted, and the mirror holds for short limits
against the bid; build_order_request builds a request for a limit
order (with acceptable volume) precisely when this validation
passes. -/
theorem limit_price_validation (bid ask ms lp : ℚ) (hms : tol < ms) :
    ((validate_limit_price (some ⟨bid, ask⟩) ms "long" lp).1 = true ↔ ms ≤ ask - lp)
    ∧ ((validate_limit_price (some ⟨bid, ask⟩) ms "short" lp).1 = true ↔ ms ≤ lp - bid)
    ∧ (validate_limit_price (some ⟨bid, ask⟩) ms "long" ask).1 = false
    ∧ (validate_limit_price (some ⟨bid, ask⟩) ms "long" (ask - ms)).1 = true
    ∧ (validate_limit_price (some ⟨bid, ask⟩) ms "short" bid).1 = false
    ∧ (validate_limit_price (some ⟨bid, ask⟩) ms "short" (bid + ms)).1 = true
    ∧ (∀ (cfg : Config) (t : Tick) (d : String) (v sl tp lp2 : ℚ),
        ¬ (round_lot cfg.LOT_STEP cfg.MIN_LOT v < cfg.MIN_LOT) →
        ((build_order_request cfg (some t) d v sl tp "limit" (some lp2)).isSome = true ↔
          (validate_limit_price (some t) cfg.MIN_STOP_DISTANCE d lp2).1 = true)) := by
  have htol : (0 : ℚ) < tol := tol_pos
  have hlong : ∀ x : ℚ,
      (validate_limit_price (some ⟨bid, ask⟩) ms "long" x).1 = true ↔ ms ≤ ask - x := by
    intro x
    simp only [validate_limit_price, if_true]
    split_ifs with h1 h2
    · constructor
      · intro hv
        simp at hv
      · intro hc
        linarith
    · constructor
      · intro _
        linarith [not_lt.mp h2]
      · intro _
        rfl
    · constructor
      · intro hv
        simp at hv
      · intro hc
        exact absurd (by linarith : x < ask - tol) h1
  have hshort : ∀ x : ℚ,
      (validate_limit_price (some ⟨bid, ask⟩) ms "short" x).1 = true ↔ ms ≤ x - bid := by
    intro x
    simp only [validate_limit_price]
    rw [if_neg (show ¬ ("short" : String) = "long" by decide)]
    split_ifs with h1 h2
    · constructor
      · intro hv
        simp at hv
      · intro hc
        linarith
    · constructor
      · intro _
        linarith [not_lt.mp h2]
      · intro _
        rfl
    · constructor
      · intro hv
        simp at hv
      · intro hc
        exact absurd (by linarith : bid + tol < x) h1
  refine ⟨hlong lp, hshort lp, ?_, ?_, ?_, ?_, ?_⟩
  · rw [Bool.eq_false_iff]
    intro hc
    have := (hlong ask).mp hc
    linarith
  · exact (hlong (ask - ms)).mpr (by linarith)
  · rw [Bool.eq_false_iff]
    intro hc
    have := (hshort bid).mp hc
    linarith
  · exact (hshort (bid + ms)).mpr (by linarith)
  · intro cfg t d v sl tp lp2 hvol
    simp only [build_order_request, if_true]
    rw [if_neg hvol, if_neg (show ¬ ("limit" : String) = "market" by decide)]
    by_cases hv : (validate_limit_price (some t) cfg.MIN_STOP_DISTANCE d lp2).1 = true
    · rw [if_pos hv]
      simp [hv]
    · rw [if_neg hv]
      simp [hv]

/-- Witness for C4: bid 99, ask 100, min stop 0.1: the boundary
instances of the validation. -/
theorem limit_price_validation_witness :
    (validate_limit_price (some ⟨99, 100⟩) (1/10) "long" 100).1 = false
    ∧ (validate_limit_price (some ⟨99, 100⟩) (1/10) "long" (100 - 1/10)).1 = true := by
  have h := limit_price_validation 99 100 (1/10) 0 (by norm_num [tol])
  exact ⟨h.2.2.1, h.2.2.2.1⟩

lemma roundTo_eq_self (d : ℕ) (q : ℚ) (h : ∃ k : ℤ, (k : ℚ) = q * 10 ^ d) :
    roundTo d q = q := by
  obtain ⟨k, hk⟩ := h
  unfold roundTo
  rw [← hk, round_intCast, hk]
  field_simp

lemma round_lot_point_017 : round_lot (1/100) (1/100) (17/1000) = 1/100 := by
  show roundTo 8 ((⌊max (17/1000 : ℚ) (1/100) / (1/100)⌋ : ℚ) * (1/100)) = 1/100
  have hmax : max (17/1000 : ℚ) (1/100) = 17/1000 := by
    rw [max_eq_left]
    norm_num
  rw [hmax]
  have hdiv : (17/1000 : ℚ) / (1/100) = 17/10 := by norm_num
  rw [hdiv]
  have hfl : ⌊(17/10 : ℚ)⌋ = 1 := by
    rw [Int.floor_eq_iff]
    norm_num
  rw [hfl]
  rw [roundTo_eq_self 8 _ ⟨10 ^ 6, by norm_num⟩]
  norm_num

/-- Claim C5: volume normalization clamps the requested volume up to
the minimum lot and then floors to a lot-step multiple, never rounding
up, so (for a positive lot step on the broker's 1e-8 decimal grid) the
normalized volume never exceeds max(volume, min_lot); 0.017 with
min_lot 0.01 and lot step 0.01 normalizes to 0.01; and whenever the
normalized volume is still below the minimum lot,
build_order_request produces no request. -/
theorem volume_normalization (step minl v : ℚ) (hstep : 0 < step)
    (hscale : ∃ k : ℤ, (k : ℚ) = step * 10 ^ 8) :
    round_lot step minl v ≤ max v minl
    ∧ round_lot (1/100) (1/100) (17/1000) = 1/100
    ∧ (∀ (cfg : Config) (tick : Option Tick) (d : String) (vv sl tp : ℚ)
        (ot : String) (lp : Option ℚ),
        round_lot cfg.LOT_STEP cfg.MIN_LOT vv < cfg.MIN_LOT →
        build_order_request cfg tick d vv sl tp ot lp = none) := by
  refine ⟨?_, round_lot_point_017, ?_⟩
  · obtain ⟨k, hk⟩ := hscale
    unfold round_lot
    rw [roundTo_eq_self 8 _ ⟨⌊max v minl / step⌋ * k, by push_cast; rw [hk]; ring⟩]
    calc (⌊max v minl / step⌋ : ℚ) * step
        ≤ (max v minl / step) * step := by
          exact mul_le_mul_of_nonneg_right (Int.floor_le _) hstep.le
      _ = max v minl := div_mul_cancel₀ _ hstep.ne'
  · intro cfg tick d vv sl tp ot lp hv
    cases tick with
    | none => rfl
    | some t =>
      simp only [build_order_request]
      rw [if_pos hv]

/-- Witness for C5: step 0.01, min lot 0.01, volume 0.017 — the
normalized volume is 0.01 and does not exceed max(0.017, 0.01). -/
theorem volume_normalization_witness :
    round_lot (1/100) (1/100) (17/1000) = 1/100
    ∧ round_lot (1/100) (1/100) (17/1000) ≤ max (17/1000) (1/100) := by
  have h := volume_normalization (1/100) (1/100) (17/1000) (by norm_num)
    ⟨10 ^ 6, by norm_num⟩
  exact ⟨h.2.1, h.1⟩

/-- Claim C8: resolving the two most recent fully closed candles: when
the final row's close time is still in the future relative to now
minus the safety margin, the final row is discarded and the two rows
before it are used; otherwise the final two rows are used; and when
fewer than two usable closed rows exist (the under-3-row path), the
resolution yields nothing and entry detection reports insufficient
data with no order. -/
theorem closed_candle_resolution :
    (∀ (pre : List Candle) (a b c : Candle) (mins now safety : ℤ),
      now - safety < bar_end c mins →
      get_last_two_closed (pre ++ [a, b, c]) mins now safety = some (a, b))
    ∧ (∀ (pre : List Candle) (a b c : Candle) (mins now safety : ℤ),
      bar_end c mins ≤ now - safety →
      get_last_two_closed (pre ++ [a, b, c]) mins now safety = some (b, c))
    ∧ (∀ (df : List Candle) (mins now safety : ℤ),
      df.length < 3 →
      (df.filter (fun cd => decide (bar_end cd mins ≤ now - safety))).length < 2 →
      get_last_two_closed df mins now safety = none)
    ∧ (∀ (df : List Candle) (now : ℤ) (trend : String) (thr pct : ℚ),
      get_last_two_closed df 15 now 1 = none →
      detect_entry_15m df now trend thr pct =
        (none, "not enough closed bars", OrderHint.market)) := by
  have hrev : ∀ (pre : List Candle) (a b c : Candle),
      (pre ++ [a, b, c]).reverse = c :: b :: a :: pre.reverse := by
    intro pre a b c
    simp
  refine ⟨?_, ?_, ?_, ?_⟩
  · intro pre a b c mins now safety hf
    unfold get_last_two_closed
    rw [if_neg (by simp), hrev]
    simp [hf]
  · intro pre a b c mins now safety hc
    unfold get_last_two_closed
    rw [if_neg (by simp), hrev]
    simp [not_lt.mpr hc]
  · intro df mins now safety hlen hcl
    unfold get_last_two_closed
    rw [if_pos hlen]
    rcases hr : (df.filter (fun cd => decide (bar_end cd mins ≤ now - safety))).reverse
      with - | ⟨x, - | ⟨y, rest⟩⟩
    · simp [hr]
    · simp [hr]
    · exfalso
      have h2 := congrArg List.length hr
      rw [List.length_reverse] at h2
      simp [h2] at hcl
      omega
  · intro df now trend thr pct h
    unfold detect_entry_15m
    rw [h]

/-- Witness for C8: three bars at open times 0, 900, 1800 on M15; at
now=2000 the final bar is still forming and the first two are used; at
now=2701 the final bar is closed and the last two are used. -/
theorem closed_candle_resolution_witness :
    get_last_two_closed [⟨0, 1, 2, 1, 2⟩, ⟨900, 2, 3, 2, 3⟩, ⟨1800, 3, 4, 3, 4⟩]
        15 2000 1 = some (⟨0, 1, 2, 1, 2⟩, ⟨900, 2, 3, 2, 3⟩)
    ∧ get_last_two_closed [⟨0, 1, 2, 1, 2⟩, ⟨900, 2, 3, 2, 3⟩, ⟨1800, 3, 4, 3, 4⟩]
        15 2701 1 = some (⟨900, 2, 3, 2, 3⟩, ⟨1800, 3, 4, 3, 4⟩) := by
  constructor
  · exact closed_candle_resolution.1 [] ⟨0, 1, 2, 1, 2⟩ ⟨900, 2, 3, 2, 3⟩
      ⟨1800, 3, 4, 3, 4⟩ 15 2000 1 (by norm_num [bar_end])
  · exact closed_candle_resolution.2.1 [] ⟨0, 1, 2, 1, 2⟩ ⟨900, 2, 3, 2, 3⟩
      ⟨1800, 3, 4, 3, 4⟩ 15 2701 1 (by norm_num [bar_end])

lemma tighten_step_mem (cfg : Config) (S : List ℕ) (inp : TightenInp)
    (t : ℕ) (htk : inp.ticket = some t) (hmem : t ∈ S) :
    tighten_step cfg S inp = (none, S) := by
  simp [tighten_step, htk, hmem]

lemma mem_tighten_step_set (cfg : Config) (S : List ℕ) (inp : TightenInp)
    (x : ℕ) (hx : x ∈ S) : x ∈ (tighten_step cfg S inp).2 := by
  rcases htk : inp.ticket with - | t
  · simp [tighten_step, htk, hx]
  · simp only [tighten_step, htk]
    split_ifs <;> simp [List.mem_cons, hx]

lemma tighten_step_cases (cfg : Config) (S : List ℕ) (inp : TightenInp)
    (t : ℕ) (htk : inp.ticket = some t) (hnot : t ∉ S) :
    ((tighten_step cfg S inp).2 = S
      ∧ ((tighten_step cfg S inp).1 = none ∨ inp.modifyOk = false))
    ∨ ((tighten_step cfg S inp).2 = t :: S
      ∧ (tighten_step cfg S inp).1 ≠ none ∧ inp.modifyOk = true) := by
  simp only [tighten_step, htk]
  rw [if_neg hnot]
  split_ifs <;> simp_all

lemma tighten_run_none_of_mem (cfg : Config) (t : ℕ) :
    ∀ (trace : List TightenInp) (S : List ℕ), t ∈ S →
      ∀ (i : ℕ) (inp : TightenInp), trace.get? i = some inp →
        inp.ticket = some t →
        (tighten_run cfg S trace).1.get? i = some none := by
  intro trace
  induction trace with
  | nil =>
    intro S hS i inp hi htk
    simp at hi
  | cons a rest ih =>
    intro S hS i inp hi htk
    cases i with
    | zero =>
      simp only [List.get?] at hi
      injection hi with hi
      simp only [tighten_run, List.get?]
      rw [tighten_step_mem cfg S a t (by rw [hi]; exact htk) hS]
    | succ n =>
      simp only [tighten_run, List.get?]
      exact ih (tighten_step cfg S a).2
        (mem_tighten_step_set cfg S a t hS) n inp (by simpa using hi) htk

/-- Claim C2: the run-scoped tightened set makes stop-loss tightening
one-shot per ticket within a run: a ticket already in the set causes
no modification and leaves the set unchanged; a ticket enters the set
only through a round that issued a modification whose transport
succeeded; a failed modification leaves the set unchanged (ticket
still eligible); once a ticket is in the set, no later poll round of
the run issues a modification for it, in particular every round after
a successful tightening of that ticket. -/
theorem sl_tighten_once_per_run :
    (∀ (cfg : Config) (S : List ℕ) (inp : TightenInp) (t : ℕ),
      inp.ticket = some t → t ∈ S → tighten_step cfg S inp = (none, S))
    ∧ (∀ (cfg : Config) (S : List ℕ) (inp : TightenInp) (t : ℕ),
      inp.ticket = some t → t ∉ S → t ∈ (tighten_step cfg S inp).2 →
        (tighten_step cfg S inp).1 ≠ none ∧ inp.modifyOk = true)
    ∧ (∀ (cfg : Config) (S : List ℕ) (inp : TightenInp),
      inp.modifyOk = false → (tighten_step cfg S inp).2 = S)
    ∧ (∀ (cfg : Config) (S : List ℕ) (inp : TightenInp) (t : ℕ),
      inp.ticket = some t → (tighten_step cfg S inp).1 ≠ none →
      inp.modifyOk = true → (tighten_step cfg S inp).2 = t :: S)
    ∧ (∀ (cfg : Config) (S : List ℕ) (t : ℕ), t ∈ S →
      ∀ (trace : List TightenInp) (i : ℕ) (inp : TightenInp),
        trace.get? i = some inp → inp.ticket = some t →
        (tighten_run cfg S trace).1.get? i = some none)
    ∧ (∀ (cfg : Config) (S : List ℕ) (inp0 : TightenInp) (t : ℕ)
        (trace : List TightenInp) (i : ℕ) (inp : TightenInp),
      inp0.ticket = some t → (tighten_step cfg S inp0).1 ≠ none →
      inp0.modifyOk = true →
      trace.get? i = some inp → inp.ticket = some t →
      (tighten_run cfg (tighten_step cfg S inp0).2 trace).1.get? i = some none) := by
  have hadd : ∀ (cfg : Config) (S : List ℕ) (inp : TightenInp) (t : ℕ),
      inp.ticket = some t → (tighten_step cfg S inp).1 ≠ none →
      inp.modifyOk = true → (tighten_step cfg S inp).2 = t :: S := by
    intro cfg S inp t htk hiss hok
    by_cases hmem : t ∈ S
    · exact absurd (by rw [tighten_step_mem cfg S inp t htk hmem]) hiss
    · rcases tighten_step_cases cfg S inp t htk hmem with ⟨-, h | h⟩ | ⟨h2, -, -⟩
      · exact absurd h hiss
      · rw [hok] at h
        exact absurd h (by simp)
      · exact h2
  refine ⟨?_, ?_, ?_, hadd, ?_, ?_⟩
  · intro cfg S inp t htk hmem
    exact tighten_step_mem cfg S inp t htk hmem
  · intro cfg S inp t htk hnot hmem2
    rcases tighten_step_cases cfg S inp t htk hnot with ⟨h2, -⟩ | ⟨-, h⟩
    · rw [h2] at hmem2
      exact absurd hmem2 hnot
    · exact h
  · intro cfg S inp hok
    rcases htk : inp.ticket with - | t
    · simp [tighten_step, htk]
    · by_cases hmem : t ∈ S
      · rw [tighten_step_mem cfg S inp t htk hmem]
      · rcases tighten_step_cases cfg S inp t htk hmem with ⟨h2, -⟩ | ⟨-, -, h⟩
        · exact h2
        · rw [hok] at h
          exact absurd h (by simp)
  · intro cfg S t hS trace i inp hi htk
    exact tighten_run_none_of_mem cfg t trace S hS i inp hi htk
  · intro cfg S inp0 t trace i inp htk0 hiss hok hi htk
    have h2 := hadd cfg S inp0 t htk0 hiss hok
    exact tighten_run_none_of_mem cfg t trace (tighten_step cfg S inp0).2
      (by rw [h2]; exact List.mem_cons_self t S) i inp hi htk

/-- Witness for C2: with ticket 7 already in the tightened set, a poll
round for that ticket issues nothing and leaves the set unchanged. -/
theorem sl_tighten_once_per_run_witness :
    tighten_step
      { EMAS_TREND := [9, 20, 50], SL_DISTANCE_USD := 8, TP_DISTANCE_USD := 30,
        MIN_LOT := 1, LOT_STEP := 1, DEFAULT_VOLUME := 1, DRY_RUN := false,
        MAGIC := 987654, MIN_STOP_DISTANCE := 1,
        LARGE_CANDLE_THRESHOLD_USD := 7, LIMIT_PULLBACK_PCT := 1,
        LIMIT_PENDING_MAX_WAIT_SECONDS := 1800, LIMIT_PENDING_POLL_INTERVAL := 5,
        TRAIL_TRIGGER_RR := 2, REDUCED_RISK_USD := 3 }
      [7]
      { ticket := some 7, price_open := 100, pos_type := 0, sl := some 92,
        tp := some 130, tick := some ⟨120, 121⟩, modifyOk := true } =
      (none, [7]) :=
  sl_tighten_once_per_run.1 _ [7] _ 7 rfl (by simp)

lemma round_lot_one : round_lot 1 1 1 = 1 := by
  show roundTo 8 ((⌊max (1:ℚ) 1 / 1⌋ : ℚ) * 1) = 1
  rw [max_self, div_one, Int.floor_one]
  rw [roundTo_eq_self 8 _ ⟨10 ^ 8, by norm_num⟩]
  norm_num

/-- Configuration of the concrete pending-timeout scenario. -/
def c7cfg : Config :=
  { EMAS_TREND := [9, 20, 50], SL_DISTANCE_USD := 8, TP_DISTANCE_USD := 30,
    MIN_LOT := 1, LOT_STEP := 1, DEFAULT_VOLUME := 1, DRY_RUN := false,
    MAGIC := 987654, MIN_STOP_DISTANCE := 1,
    LARGE_CANDLE_THRESHOLD_USD := 2, LIMIT_PULLBACK_PCT := 1/2,
    LIMIT_PENDING_MAX_WAIT_SECONDS := 10, LIMIT_PENDING_POLL_INTERVAL := 5,
    TRAIL_TRIGGER_RR := 2, REDUCED_RISK_USD := 3 }

/-- Concrete scan environment for the pending-timeout scenario: no
open position, a rising trend series, a big bullish reversal candle
that yields a buy limit at 10, a live tick, a pending-fill poll that
never observes a position, and one live pending order of this agent
whose removal succeeds. -/
def c7env : ScanEnv :=
  { cfg := c7cfg
    positions := []
    h1closes := [0, 5355]
    entryBars := [⟨0, 1, 2, 1, 2⟩, ⟨900, 10, 10, 9, 9⟩, ⟨1800, 9, 12, 9, 11⟩]
    now := 2701
    tick := some ⟨11, 12⟩
    pendingObs := fun _ => false
    cancelWorld :=
      { ordersGetFails := none
        orders := [{ ticket := some 77, magic := some 987654,
                     sendRes := some (some 0), deleteFails := none }] } }

/-- The buy-limit request built in the pending-timeout scenario. -/
def c7req : OrderRequest :=
  { action := TradeAction.pending, volume := 1, otype := OrderKind.buy_limit,
    price := 10, sl := 2, tp := 40, magic := 987654 }

/-- Claim C7: when no position appears within the maximum pending
wait, the pending supervision cancels this agent's pending orders and
reports pending_timeout_cancelled, and scan_once returns that reason
end to end on a concrete run; the cancellation routine never escalates
a failure: an orders_get transport failure yields a (0, [message])
aggregate, an order of a foreign magic number is skipped, a
transport-level None response falls back to the secondary delete path
(counted on success, reported in the per-order error list on failure),
and a per-order exception is reported in the error list while the
loop continues. -/
theorem pending_timeout_cancel :
    (∀ (env : ScanEnv) (req : OrderRequest),
      (∀ i, env.pendingObs i = false) →
      pending_phase env req =
        { opened := false, reason := "pending_timeout_cancelled",
          request := some req,
          cancelReport := some (cancel_pending_orders_for_symbol env.cfg env.cancelWorld) })
    ∧ scan_once c7env =
        { opened := false, reason := "pending_timeout_cancelled",
          request := some c7req, cancelReport := some (1, []) }
    ∧ (∀ (cfg : Config) (e : String) (os : List PendingOrderW),
      cancel_pending_orders_for_symbol cfg ⟨some e, os⟩ =
        (0, ["orders_get_failed:" ++ e]))
    ∧ (∀ (cfg : Config) (acc : ℕ × List String) (o : PendingOrderW) (m : ℤ),
      o.magic = some m → m ≠ cfg.MAGIC → cancel_order_step cfg acc o = acc)
    ∧ (∀ (cfg : Config) (acc : ℕ × List String) (o : PendingOrderW) (t : ℕ),
      cfg.DRY_RUN = false → o.magic = some cfg.MAGIC → o.ticket = some t →
      o.sendRes = none → o.deleteFails = none →
      cancel_order_step cfg acc o = (acc.1 + 1, acc.2))
    ∧ (∀ (cfg : Config) (acc : ℕ × List String) (o : PendingOrderW) (t : ℕ) (e : String),
      cfg.DRY_RUN = false → o.magic = some cfg.MAGIC → o.ticket = some t →
      o.sendRes = none → o.deleteFails = some e →
      cancel_order_step cfg acc o =
        (acc.1, acc.2 ++ [toString t ++ ":delete_failed:" ++ e]))
    ∧ (∀ (cfg : Config) (acc : ℕ × List String) (o : PendingOrderW),
      cfg.DRY_RUN = false → o.magic = some cfg.MAGIC → o.ticket = none →
      cancel_order_step cfg acc o = (acc.1, acc.2 ++ ["unknown:int_of_none"])) := by
  refine ⟨?_, ?_, ?_, ?_, ?_, ?_, ?_⟩
  · intro env req h
    unfold pending_phase
    rw [if_neg]
    simp only [List.any_eq_true, not_exists, not_and]
    intro i hi
    simp [h i]
  · norm_num [scan_once, c7env, c7cfg, c7req, analyze_trend, emaLast, ema_step,
      trend_classify, nLt, nGt, detect_entry_15m, get_last_two_closed, bar_end,
      detect_entry_core, candle_is_bull, candle_is_bear, tol, round_lot_one,
      build_order_request, validate_limit_price, after_send, pending_phase,
      numPolls, List.range_succ, cancel_pending_orders_for_symbol,
      cancel_order_step]
    rw [if_neg (show ¬ ("limit" : String) = "market" by decide)]
    rfl
  · intro cfg e os
    rfl
  · intro cfg acc o m hm hne
    simp [cancel_order_step, hm, hne]
  · intro cfg acc o t hdr hm ht hs hd
    simp [cancel_order_step, hm, hdr, ht, hs, hd]
  · intro cfg acc o t e hdr hm ht hs hd
    simp [cancel_order_step, hm, hdr, ht, hs, hd]
  · intro cfg acc o hdr hm ht
    simp [cancel_order_step, hm, hdr, ht]

/-- Witness for C7: the timeout branch at the concrete environment,
with every poll observing no position. -/
theorem pending_timeout_cancel_witness :
    pending_phase c7env c7req =
      { opened := false, reason := "pending_timeout_cancelled",
        request := some c7req,
        cancelReport := some (cancel_pending_orders_for_symbol c7env.cfg c7env.cancelWorld) } :=
  pending_timeout_cancel.1 c7env c7req (fun _ => rfl)

/-- Configuration of the pending-order counterexample scenario
(dry-run, default large-candle threshold 7). -/
def c1cfg : Config :=
  { EMAS_TREND := [9, 20, 50], SL_DISTANCE_USD := 8, TP_DISTANCE_USD := 30,
    MIN_LOT := 1, LOT_STEP := 1, DEFAULT_VOLUME := 1, DRY_RUN := true,
    MAGIC := 987654, MIN_STOP_DISTANCE := 1,
    LARGE_CANDLE_THRESHOLD_USD := 7, LIMIT_PULLBACK_PCT := 1/2,
    LIMIT_PENDING_MAX_WAIT_SECONDS := 10, LIMIT_PENDING_POLL_INTERVAL := 5,
    TRAIL_TRIGGER_RR := 2, REDUCED_RISK_USD := 3 }

/-- Concrete scan environment with NO open position but one live
pending order for the symbol (visible to orders_get), and a valid
market-entry signal: bullish trend, bearish-then-bullish reversal with
undercut low and recovered close. -/
def c1env : ScanEnv :=
  { cfg := c1cfg
    positions := []
    h1closes := [0, 5355]
    entryBars := [⟨0, 1, 2, 1, 2⟩, ⟨900, 10, 10, 9, 9⟩, ⟨1800, 9, 10, 9, 10⟩]
    now := 2701
    tick := some ⟨11, 12⟩
    pendingObs := fun _ => false
    cancelWorld :=
      { ordersGetFails := none
        orders := [{ ticket := some 55, magic := some 987654,
                     sendRes := some (some 0), deleteFails := none }] } }

/-- The market buy request that scan_once builds in the
counterexample scenario. -/
def c1req : OrderRequest :=
  { action := TradeAction.deal, volume := 1, otype := OrderKind.buy,
    price := 12, sl := 4, tp := 42, magic := 987654 }

/-- Counterexample to claim C1 as stated: a pending order for the
symbol is live (orders_get would return it), no position is open, and
scan_once nevertheless builds and submits a new order — the scan gate
checks positions_get only and never consults pending orders. -/
theorem scan_once_enters_despite_pending_order :
    c1env.positions = []
    ∧ c1env.cancelWorld.ordersGetFails = none
    ∧ c1env.cancelWorld.orders.length = 1
    ∧ scan_once c1env =
        { opened := true, reason := "dry-run",
          request := some c1req, cancelReport := none } := by
  refine ⟨rfl, rfl, rfl, ?_⟩
  norm_num [scan_once, c1env, c1cfg, c1req, analyze_trend, emaLast, ema_step,
    trend_classify, nLt, nGt, detect_entry_15m, get_last_two_closed, bar_end,
    detect_entry_core, candle_is_bull, candle_is_bear, tol, round_lot_one,
    build_order_request, validate_limit_price, after_send]

/-- Claim C1 amended: scan_once refuses to initiate a new entry
exactly when an open position exists for the symbol — it then returns
position_already_open without building or submitting any order; a
live pending order alone does not prevent a new entry. -/
theorem scan_once_skips_open_position (env : ScanEnv)
    (h : env.positions ≠ []) :
    scan_once env =
      { opened := false, reason := "position_already_open",
        request := none, cancelReport := none } := by
  rcases hp : env.positions with - | ⟨p, rest⟩
  · exact absurd hp h
  · simp [scan_once, hp]

/-- Witness for the amended C1: an environment with one open position
returns position_already_open with no request built. -/
theorem scan_once_skips_open_position_witness :
    scan_once
      { cfg := c1cfg, positions := [⟨9001⟩], h1closes := [0, 5355],
        entryBars := [⟨0, 1, 2, 1, 2⟩, ⟨900, 10, 10, 9, 9⟩, ⟨1800, 9, 10, 9, 10⟩],
        now := 2701, tick := some ⟨11, 12⟩, pendingObs := fun _ => false,
        cancelWorld := { ordersGetFails := none, orders := [] } } =
      { opened := false, reason := "position_already_open",
        request := none, cancelReport := none } :=
  scan_once_skips_open_position _ (by simp)

end SwingPilot
